import Mathlib

/-!
Shallow embedding of the vector store of baymac/self-notes
(src/vectorstore.py) and of the query pipeline (src/query.py).

Python floats are idealised as real numbers; numpy arrays as lists of
lists of reals; JSON metadata dicts as association lists from strings to
values.  Exceptions are modelled with Except, the error value carrying
the state at the moment of the raise, so that claims about partial
mutation are meaningful.  np.argsort (default kind, quicksort) is
modelled as a stable ascending sort, realised as an insertion sort by
the lexicographic order on (value, index).  That model is faithful to
numpy only on arrays shorter than 16 elements, where introsort runs a
single stable insertion-sort pass; on longer arrays the default sort is
documented as unstable and may scramble equal elements.  Accordingly,
no theorem below draws a tie-order conclusion except under an explicit
below-16 bound; the count and value-sortedness conclusions hold for any
correct ascending sort and need no such bound.
-/

namespace SelfNotes

/-- A JSON metadata value: the repository stores strings (title, url,
page id, last edited time) and integers (chunk index). -/
inductive MVal where
  | str (s : String)
  | int (n : Int)
deriving DecidableEq, Repr

/-- A metadata record: a JSON object, modelled as an association list. -/
abbrev Meta := List (String × MVal)

/-- Python dict update `\x7b**meta, k: v\x7d`: if the key is present its value
is replaced in place, otherwise the pair is appended at the end. -/
def dictSet (m : Meta) (k : String) (v : MVal) : Meta :=
  if m.any (fun p => p.1 == k) then
    m.map (fun p => if p.1 == k then (k, v) else p)
  else
    m ++ [(k, v)]

/-- The dict comprehension dropping the "document" key, used by both
`query` and `get_all_metadata`. -/
def stripDocument (m : Meta) : Meta :=
  m.filter (fun p => p.1 != "document")

/-- Reading a string-valued key of a metadata dict. -/
def getStr (m : Meta) (k : String) : String :=
  match m.lookup k with
  | some (MVal.str s) => s
  | _ => ""

/-- A stored vector (one row of the embeddings array). -/
abbrev Vec := List ℝ

/-- The embeddings array: a dense 2-D array, rows are records. -/
abbrev Mat := List Vec

/-- The two persisted artifacts of a store directory:
embeddings.npy and metadata.json.  `none` means the file is absent. -/
structure Disk where
  embFile : Option Mat
  metaFile : Option (List Meta)

/-- The in-memory state of a VectorStore: `self.embeddings` (None before
anything is loaded or added) and `self.metadata`. -/
structure VectorStore where
  embeddings : Option Mat
  metadata : List Meta

/-- In-memory store together with the persisted artifacts. -/
structure State where
  store : VectorStore
  disk : Disk

/-- VectorStore._load, run on construction: reads the artifacts only
when BOTH exist; otherwise the store stays empty. -/
def load (d : Disk) : VectorStore :=
  if d.embFile.isSome && d.metaFile.isSome then
    ⟨d.embFile, d.metaFile.getD []⟩
  else
    ⟨none, []⟩

/-- VectorStore._save: np.save runs only when embeddings is not None;
the metadata file is always rewritten. -/
def save (st : State) : State :=
  ⟨st.store,
   ⟨if st.store.embeddings.isSome then st.store.embeddings else st.disk.embFile,
    some st.store.metadata⟩⟩

/-- VectorStore.clear: reset memory and delete both artifacts. -/
def clear (_st : State) : State :=
  ⟨⟨none, []⟩, ⟨none, none⟩⟩

/-- VectorStore.count. -/
def count (s : VectorStore) : ℕ :=
  s.metadata.length

/-- Column count of a dense 2-D array (length of the first row). -/
def matWidth (m : Mat) : ℕ :=
  (m.head?.map List.length).getD 0

/-- np.array of a list of rows succeeds only when the rows all have one
common length (ragged input raises ValueError). -/
def rect (m : Mat) : Bool :=
  m.all (fun r => r.length == matWidth m)

/-- The error raised by Add: numpy raises ValueError both for a ragged
input batch and for a vertical stack of arrays of different widths; the
spec calls this kind DimensionMismatchError. -/
inductive VSError where
  | dimensionMismatch
deriving DecidableEq, Repr

/-- The metadata entries built by Add: one per position of
zip(documents, metadatas), the chunk text stored under "document". -/
def combineMeta (documents : List String) (metadatas : List Meta) : List Meta :=
  (documents.zip metadatas).map (fun p => dictSet p.2 "document" (MVal.str p.1))

/-- VectorStore.add.  The error value carries the state at the moment of
the raise: both raise sites (np.array on ragged input, np.vstack on a
width mismatch) occur before any field of self is assigned and before
_save, so the carried state is the input state.  np.vstack also raises
when the new batch is empty, since np.array of an empty list has shape
(0,), which vstack treats as one row of width 0; stores of width 0 are
not modelled. -/
def add (st : State) (embeddings : Mat) (documents : List String)
    (metadatas : List Meta) : Except (VSError × State) State :=
  if !(rect embeddings) then
    Except.error (VSError.dimensionMismatch, st)
  else
    let newMeta := combineMeta documents metadatas
    match st.store.embeddings with
    | none =>
        Except.ok (save ⟨⟨some embeddings, newMeta⟩, st.disk⟩)
    | some cur =>
        if !(embeddings.isEmpty) && (matWidth embeddings == matWidth cur) then
          Except.ok (save ⟨⟨some (cur ++ embeddings),
                            st.store.metadata ++ newMeta⟩, st.disk⟩)
        else
          Except.error (VSError.dimensionMismatch, st)

/-- get_all_metadata: every record, "document" key stripped, in
insertion order. -/
def getAllMetadata (s : VectorStore) : List Meta :=
  s.metadata.map stripDocument

/-- np.dot of a stored row with the query vector (rows and query have
equal length in every store built by add). -/
noncomputable def dot (u v : Vec) : ℝ :=
  ((u.zip v).map (fun p => p.1 * p.2)).sum

/-- np.linalg.norm: the Euclidean norm of a vector. -/
noncomputable def nrm (v : Vec) : ℝ :=
  Real.sqrt (dot v v)

/-- The guard constant added to the denominator in query. -/
noncomputable def eps : ℝ := 1e-10

/-- Cosine similarity as computed in query:
dot(v, q) / (norm(v) * norm(q) + 1e-10). -/
noncomputable def cosSim (q v : Vec) : ℝ :=
  dot v q / (nrm v * nrm q + eps)

/-- The similarities array of a query: one entry per row of the
embeddings array. -/
noncomputable def simsOf (s : VectorStore) (q : Vec) : List ℝ :=
  (s.embeddings.getD []).map (cosSim q)

/-- similarities[i]. -/
def val (sims : List ℝ) (i : ℕ) : ℝ :=
  sims.getD i 0

/-- The order realising a stable ascending argsort: compare values,
break ties by index. -/
def simLe (sims : List ℝ) (i j : ℕ) : Prop :=
  val sims i < val sims j ∨ (val sims i = val sims j ∧ i ≤ j)

noncomputable instance (sims : List ℝ) : DecidableRel (simLe sims) :=
  fun _ _ => Classical.propDecidable _

instance (sims : List ℝ) : IsTotal ℕ (simLe sims) :=
  ⟨fun a b => by
    rcases lt_trichotomy (val sims a) (val sims b) with h | h | h
    · exact Or.inl (Or.inl h)
    · rcases Nat.le_total a b with hab | hab
      · exact Or.inl (Or.inr ⟨h, hab⟩)
      · exact Or.inr (Or.inr ⟨h.symm, hab⟩)
    · exact Or.inr (Or.inl h)⟩

instance (sims : List ℝ) : IsTrans ℕ (simLe sims) :=
  ⟨fun a b c hab hbc => by
    rcases hab with h1 | ⟨h1, h1'⟩ <;> rcases hbc with h2 | ⟨h2, h2'⟩
    · exact Or.inl (h1.trans h2)
    · exact Or.inl (h2 ▸ h1)
    · exact Or.inl (h1 ▸ h2)
    · exact Or.inr ⟨h1.trans h2, h1'.trans h2'⟩⟩

/-- np.argsort of the similarities array, ascending: the indices 0..n-1
sorted by value with ties in index order.  The fixed tie order matches
numpy only for arrays shorter than 16 elements (there numpy runs a
stable insertion sort); beyond that the default quicksort is unstable
and its tie order is unspecified, so tie-order theorems below carry an
explicit length bound.  Which indices are selected, and the values in
sorted order, are the same for any correct ascending sort. -/
noncomputable def argsort (sims : List ℝ) : List ℕ :=
  List.insertionSort (simLe sims) (List.range sims.length)

/-- The Python slice l[-k:] for k greater or equal 0: for k = 0 it is
the WHOLE list (this is the behaviour of -0), otherwise the last k
elements. -/
def pySliceLast {α : Type} (l : List α) (k : ℕ) : List α :=
  if k = 0 then l else l.drop (l.length - k)

/-- top_indices of query: np.argsort(similarities)[-k:][::-1] with
k = min(n_results, len(self.metadata)). -/
noncomputable def topIndices (s : VectorStore) (q : Vec) (nResults : ℕ) : List ℕ :=
  (pySliceLast (argsort (simsOf s q)) (min nResults (count s))).reverse

/-- The dict returned by query; each field is a singleton list holding
the per-result list, as in the source. -/
structure QueryResult where
  documents : List (List String)
  metadatas : List (List Meta)
  distances : List (List ℝ)

/-- VectorStore.query. -/
noncomputable def query (s : VectorStore) (q : Vec) (nResults : ℕ) : QueryResult :=
  if s.embeddings.isNone || (count s == 0) then
    ⟨[[]], [[]], [[]]⟩
  else
    let sims := simsOf s q
    let top := topIndices s q nResults
    ⟨[top.map (fun i => getStr (s.metadata.getD i []) "document")],
     [top.map (fun i => stripDocument (s.metadata.getD i []))],
     [top.map (fun i => 1 - val sims i)]⟩

/-- A source entry of the query pipeline: title and url. -/
structure Source where
  title : String
  url : String
deriving DecidableEq, Repr

/-- The value returned by src/query.py query(), extended with counters
of how many times each model collaborator was invoked. -/
structure PipelineResult where
  answer : String
  sources : List Source
  embedCalls : ℕ
  llmCalls : ℕ
deriving DecidableEq, Repr

/-- The literal short-circuit answer for an empty store. -/
def noNotesAnswer : String :=
  "No notes indexed yet. Run \x27python cli.py index\x27 first."

/-- The literal answer when retrieval yields zero chunks. -/
def noRelevantAnswer : String := "No relevant notes found."

/-- The prompt assembled from the retrieved context and the question
(SYSTEM_PROMPT.format of src/query.py). -/
def systemPrompt (context question : String) : String :=
  "You are a helpful assistant that answers questions based ONLY on the provided notes.\n\nRules:\n1. Answer ONLY using information from the notes below\n2. If the answer is not in the notes, say \x22I don\x27t have information about that in my notes\x22\n3. Be concise and direct\n4. When relevant, mention which note the information came from\n\nNotes:\n"
    ++ context ++ "\n\nQuestion: " ++ question ++ "\n\nAnswer:"

/-- One step of the loop over zip(chunks, metadatas): extend the context
parts, and append a source when the page id was not seen yet. -/
def pipelineStep (acc : List String × List Source × List String)
    (p : String × Meta) : List String × List Source × List String :=
  let contextParts := acc.1 ++ ["[From: " ++ getStr p.2 "title" ++ "]\n" ++ p.1]
  let pid := getStr p.2 "page_id"
  if acc.2.2.contains pid then
    (contextParts, acc.2.1, acc.2.2)
  else
    (contextParts, acc.2.1 ++ [⟨getStr p.2 "title", getStr p.2 "url"⟩], acc.2.2 ++ [pid])

/-- src/query.py query(): the query pipeline, parametrised by the two
model collaborators (embedding model and generation model).  The two
counters record how often each collaborator is invoked. -/
noncomputable def queryPipeline (d : Disk) (embed : String → Vec)
    (llm : String → String) (topK : ℕ) (question : String) : PipelineResult :=
  let store := load d
  if count store == 0 then
    ⟨noNotesAnswer, [], 0, 0⟩
  else
    let questionEmbedding := embed question
    let results := query store questionEmbedding topK
    if (results.documents.getD 0 []).isEmpty then
      ⟨noRelevantAnswer, [], 1, 0⟩
    else
      let chunks := results.documents.getD 0 []
      let metas := results.metadatas.getD 0 []
      let folded := (chunks.zip metas).foldl pipelineStep ([], [], [])
      let context := String.intercalate "\n\n---\n\n" folded.1
      let answer := llm (systemPrompt context question)
      ⟨answer, folded.2.1, 1, 1⟩

/-- Example query vector [1, 0]. -/
noncomputable def e1 : Vec := [1, 0]

/-- Example one-record store: vector [1, 0], chunk text "d". -/
noncomputable def oneStore : VectorStore :=
  ⟨some [e1], [[("document", MVal.str "d")]]⟩

/-- Example two-record store whose vectors are identical, so both
records have exactly equal similarity to every query. -/
noncomputable def tieStore : VectorStore :=
  ⟨some [e1, e1],
   [[("document", MVal.str "a")], [("document", MVal.str "b")]]⟩

/-- A vector of norm 2 whose direction is about 7e-6 radians away from
[1, 0]: the unit vector of the Pythagorean triple (n^2 - 1, 2n, n^2 + 1)
with n = 300000, scaled by 2.  Both entries are rational and its squared
norm is exactly 4. -/
noncomputable def skewW : Vec :=
  [179999999998 / 90000000001, 1200000 / 90000000001]

/-- Example store for the exact-vector query: record 0 is [1, 0] with
unit norm; record 1 is skewW, of norm 2 and of a direction distinct from
record 0 but within 1e-5 radians of it. -/
noncomputable def skewStore : VectorStore :=
  ⟨some [e1, skewW],
   [[("document", MVal.str "noteR")], [("document", MVal.str "noteW")]]⟩

/-! Helper lemmas. -/

theorem rect_mem_length {embs : Mat} (hr : rect embs = true) :
    ∀ r ∈ embs, r.length = matWidth embs := by
  intro r hrr
  have := List.all_eq_true.mp hr r hrr
  exact Nat.beq_eq_true_eq _ _ ▸ this

theorem rect_of_rows {embs : Mat} {d : ℕ} (hne : embs ≠ [])
    (h : ∀ r ∈ embs, r.length = d) : rect embs = true ∧ matWidth embs = d := by
  cases embs with
  | nil => exact absurd rfl hne
  | cons r t =>
    have hw : matWidth (r :: t) = d := h r (List.mem_cons_self r t)
    refine ⟨List.all_eq_true.mpr ?_, hw⟩
    intro x hx
    rw [hw, Nat.beq_eq_true_eq]
    exact h x hx

/-! C5: query on an empty store. -/

/-- C5: for every query vector and every k, Query on a store with
Count() = 0 returns the empty result set and never raises. -/
theorem C5_query_empty_store (s : VectorStore) (q : Vec) (k : ℕ)
    (h : count s = 0) : query s q k = ⟨[[]], [[]], [[]]⟩ := by
  unfold query
  simp [h]

theorem C5_witness :
    count ⟨none, []⟩ = 0 ∧
    query ⟨none, []⟩ [(1 : ℝ), 0] 4 = ⟨[[]], [[]], [[]]⟩ :=
  ⟨rfl, C5_query_empty_store ⟨none, []⟩ [(1 : ℝ), 0] 4 rfl⟩

/-! C3: construction over a directory holding exactly one artifact. -/

/-- C3 counterexample: with only the embeddings artifact present,
construction does not fail; it silently yields an empty store. -/
theorem C3_counterexample :
    (⟨some [[(1 : ℝ)]], none⟩ : Disk).embFile.isSome = true ∧
    (⟨some [[(1 : ℝ)]], none⟩ : Disk).metaFile.isSome = false ∧
    load ⟨some [[(1 : ℝ)]], none⟩ = ⟨none, []⟩ :=
  ⟨rfl, rfl, rfl⟩

/-- C3 amended: when exactly one of the two artifacts exists, loading
raises nothing and initialises an EMPTY store, ignoring the artifact. -/
theorem C3_load_one_artifact (d : Disk)
    (h : d.embFile.isSome ≠ d.metaFile.isSome) :
    load d = ⟨none, []⟩ := by
  unfold load
  cases he : d.embFile.isSome <;> cases hm : d.metaFile.isSome <;>
    simp_all

theorem C3_witness :
    ((⟨some [[(1 : ℝ)]], none⟩ : Disk).embFile.isSome ≠
      (⟨some [[(1 : ℝ)]], none⟩ : Disk).metaFile.isSome) ∧
    load ⟨some [[(1 : ℝ)]], none⟩ = ⟨none, []⟩ :=
  ⟨by simp, C3_load_one_artifact _ (by simp)⟩

/-! C7: the query pipeline on an empty store. -/

/-- C7: asking any question when the store is empty returns the literal
"No notes indexed yet" answer with no sources, and invokes neither the
embedding model nor the generation model. -/
theorem C7_pipeline_empty_store (d : Disk) (embed : String → Vec)
    (llm : String → String) (topK : ℕ) (question : String)
    (h : count (load d) = 0) :
    queryPipeline d embed llm topK question = ⟨noNotesAnswer, [], 0, 0⟩ := by
  unfold queryPipeline
  simp [h]

theorem C7_witness :
    count (load ⟨none, none⟩) = 0 ∧
    queryPipeline ⟨none, none⟩ (fun _ => [(1 : ℝ)]) (fun _ => "hi") 4 "q" =
      ⟨noNotesAnswer, [], 0, 0⟩ :=
  ⟨rfl, C7_pipeline_empty_store ⟨none, none⟩ _ _ 4 "q" rfl⟩

/-! C2: add with a vector of the wrong dimensionality. -/

/-- C2: on a store with an established dimensionality, adding a batch
holding a vector of a different length raises the dimension mismatch
error, and the state carried by the raise is exactly the pre-call state:
collection, Count() and both persisted artifacts are unchanged. -/
theorem C2_add_wrong_dim (st : State) (cur : Mat) (embs : Mat)
    (docs : List String) (metas : List Meta) (v : Vec)
    (hcur : st.store.embeddings = some cur)
    (hv : v ∈ embs) (hlen : v.length ≠ matWidth cur) :
    add st embs docs metas = Except.error (VSError.dimensionMismatch, st) := by
  by_cases hr : rect embs = true
  · have hvw : v.length = matWidth embs := rect_mem_length hr v hv
    have hww : matWidth embs ≠ matWidth cur := fun he => hlen (hvw.trans he)
    unfold add
    rw [hcur]
    simp [hr, hww]
  · unfold add
    simp [Bool.eq_false_iff.mpr hr]

theorem C2_witness :
    (⟨⟨some [[(1 : ℝ), 2]], [[("document", MVal.str "c")]]⟩,
      ⟨some [[(1 : ℝ), 2]], some [[("document", MVal.str "c")]]⟩⟩ : State).store.embeddings
      = some [[(1 : ℝ), 2]] ∧
    [(9 : ℝ), 9, 9] ∈ [[(9 : ℝ), 9, 9]] ∧
    [(9 : ℝ), 9, 9].length ≠ matWidth [[(1 : ℝ), 2]] ∧
    add ⟨⟨some [[(1 : ℝ), 2]], [[("document", MVal.str "c")]]⟩,
         ⟨some [[(1 : ℝ), 2]], some [[("document", MVal.str "c")]]⟩⟩
        [[(9 : ℝ), 9, 9]] ["x"] [[]] =
      Except.error (VSError.dimensionMismatch,
        ⟨⟨some [[(1 : ℝ), 2]], [[("document", MVal.str "c")]]⟩,
         ⟨some [[(1 : ℝ), 2]], some [[("document", MVal.str "c")]]⟩⟩) :=
  ⟨rfl, List.mem_singleton.mpr rfl, by simp [matWidth],
   C2_add_wrong_dim _ [[(1 : ℝ), 2]] _ ["x"] [[]] [(9 : ℝ), 9, 9] rfl
     (List.mem_singleton.mpr rfl) (by simp [matWidth])⟩

/-! C6: add then reload reconstructs the collection. -/

/-- C6: after any successful Add, reading the persisted artifacts back
(the construction a fresh VectorStore performs over the same directory)
reconstructs exactly the in-memory collection: vectors, metadata records
with their chunk text, order, and Count().  Since reload depends only on
the final artifacts, this covers any sequence of successful Add calls. -/
theorem C6_roundtrip (st st' : State) (embs : Mat) (docs : List String)
    (metas : List Meta) (h : add st embs docs metas = Except.ok st') :
    load st'.disk = st'.store := by
  unfold add at h
  split at h
  · cases h
  · split at h
    · cases h
      simp [load, save]
    · split at h
      · cases h
        simp [load, save]
      · cases h

theorem C6_witness :
    add ⟨⟨none, []⟩, ⟨none, none⟩⟩ [[(1 : ℝ), 0]] ["a"] [[("page_id", MVal.str "p")]] =
      Except.ok ⟨⟨some [[(1 : ℝ), 0]],
                  [[("page_id", MVal.str "p"), ("document", MVal.str "a")]]⟩,
                 ⟨some [[(1 : ℝ), 0]],
                  some [[("page_id", MVal.str "p"), ("document", MVal.str "a")]]⟩⟩ ∧
    load (⟨some [[(1 : ℝ), 0]],
           some [[("page_id", MVal.str "p"), ("document", MVal.str "a")]]⟩ : Disk) =
      ⟨some [[(1 : ℝ), 0]],
       [[("page_id", MVal.str "p"), ("document", MVal.str "a")]]⟩ := by
  constructor
  · rfl
  · exact C6_roundtrip ⟨⟨none, []⟩, ⟨none, none⟩⟩ _ [[(1 : ℝ), 0]] ["a"]
      [[("page_id", MVal.str "p")]] rfl

/-! C9: add with sequences of unequal lengths. -/

/-- C9 counterexample: an empty vectors batch with a non-empty documents
list on a store with an established dimensionality makes the claim false:
zip would truncate as claimed, but np.vstack of an (N, 2) array with the
(0,)-shaped np.array([]) raises, so Add DOES raise. -/
theorem C9_counterexample :
    ([] : Mat).length ≠ (["d"] : List String).length ∧
    add ⟨⟨some [[(1 : ℝ), 2]], [[("document", MVal.str "c")]]⟩, ⟨none, none⟩⟩
        ([] : Mat) ["d"] [[]] =
      Except.error (VSError.dimensionMismatch,
        ⟨⟨some [[(1 : ℝ), 2]], [[("document", MVal.str "c")]]⟩, ⟨none, none⟩⟩) :=
  ⟨by decide, rfl⟩

/-- C9 amended: when the vectors batch is non-empty and every vector has
the store established dimensionality, Add succeeds whether or not the
three sequences have equal lengths: it appends one row per vector but
only min(len(documents), len(metadatas)) metadata records, so the
persisted array and metadata sequence can end up with different
lengths. -/
theorem C9_add_mismatched_lengths (st : State) (cur : Mat) (embs : Mat)
    (docs : List String) (metas : List Meta)
    (hcur : st.store.embeddings = some cur) (hne : embs ≠ [])
    (hdim : ∀ r ∈ embs, r.length = matWidth cur) :
    add st embs docs metas =
      Except.ok (save ⟨⟨some (cur ++ embs),
                        st.store.metadata ++ combineMeta docs metas⟩, st.disk⟩) ∧
    (combineMeta docs metas).length = min docs.length metas.length ∧
    (cur ++ embs).length = cur.length + embs.length := by
  obtain ⟨hr, hw⟩ := rect_of_rows hne hdim
  refine ⟨?_, ?_, by simp⟩
  · unfold add
    rw [hcur]
    simp [hr, hw, hne]
  · simp [combineMeta]

theorem C9_witness :
    (⟨⟨some [[(1 : ℝ), 2]], []⟩, ⟨none, none⟩⟩ : State).store.embeddings
      = some [[(1 : ℝ), 2]] ∧
    ([[(3 : ℝ), 4], [(5 : ℝ), 6]] : Mat) ≠ [] ∧
    (∀ r ∈ ([[(3 : ℝ), 4], [(5 : ℝ), 6]] : Mat), r.length = matWidth [[(1 : ℝ), 2]]) ∧
    (add ⟨⟨some [[(1 : ℝ), 2]], []⟩, ⟨none, none⟩⟩
        [[(3 : ℝ), 4], [(5 : ℝ), 6]] ["a"] [[], []] =
      Except.ok (save ⟨⟨some ([[(1 : ℝ), 2]] ++ [[(3 : ℝ), 4], [(5 : ℝ), 6]]),
                        [] ++ combineMeta ["a"] [[], []]⟩, ⟨none, none⟩⟩) ∧
     (combineMeta ["a"] [[], []]).length = min (["a"] : List String).length ([[], []] : List Meta).length ∧
     ([[(1 : ℝ), 2]] ++ [[(3 : ℝ), 4], [(5 : ℝ), 6]] : Mat).length
       = ([[(1 : ℝ), 2]] : Mat).length + ([[(3 : ℝ), 4], [(5 : ℝ), 6]] : Mat).length) := by
  have hrows : ∀ r ∈ ([[(3 : ℝ), 4], [(5 : ℝ), 6]] : Mat),
      r.length = matWidth [[(1 : ℝ), 2]] := by
    intro r hr
    rcases List.mem_cons.mp hr with h | hr2
    · subst h; rfl
    · rcases List.mem_cons.mp hr2 with h | h
      · subst h; rfl
      · exact absurd h (List.not_mem_nil r)
  refine ⟨rfl, by simp, hrows, ?_⟩
  exact C9_add_mismatched_lengths _ [[(1 : ℝ), 2]] _ ["a"] [[], []] rfl (by simp) hrows

/-! C10: the "document" key. -/

theorem lookup_replaceKey (m : Meta) (k : String) (v : MVal)
    (h : m.any (fun p => p.1 == k) = true) :
    (m.map (fun p => if p.1 == k then (k, v) else p)).lookup k = some v := by
  induction m with
  | nil => simp at h
  | cons p t ih =>
    by_cases hp : p.1 = k
    · have hb : (p.1 == k) = true := beq_iff_eq.mpr hp
      rw [List.map_cons, if_pos hb]
      simp [List.lookup]
    · have hb : (p.1 == k) = false := beq_eq_false_iff_ne.mpr hp
      have ht : t.any (fun p => p.1 == k) = true := by
        simpa [List.any_cons, hb] using h
      have hk : (k == p.1) = false := beq_eq_false_iff_ne.mpr (Ne.symm hp)
      rw [List.map_cons, if_neg (by simp [hb])]
      simpa [List.lookup, hk] using ih ht

theorem lookup_append_key (m : Meta) (k : String) (v : MVal)
    (h : m.any (fun p => p.1 == k) = false) :
    (m ++ [(k, v)]).lookup k = some v := by
  induction m with
  | nil => simp [List.lookup]
  | cons p t ih =>
    simp only [List.any_cons, Bool.or_eq_false_iff] at h
    have hk : (k == p.1) = false := by
      rcases h with ⟨h1, _⟩
      exact beq_eq_false_iff_ne.mpr (Ne.symm (beq_eq_false_iff_ne.mp h1))
    simp only [List.cons_append, List.lookup, hk]
    exact ih h.2

/-- The value stored by add under "document" is the chunk text, whatever
the caller put there. -/
theorem lookup_dictSet_document (m : Meta) (k : String) (v : MVal) :
    (dictSet m k v).lookup k = some v := by
  unfold dictSet
  by_cases h : m.any (fun p => p.1 == k) = true
  · simp only [h, if_true]
    exact lookup_replaceKey m k v h
  · have hf := Bool.eq_false_iff.mpr h
    simp only [hf, Bool.false_eq_true, if_false]
    exact lookup_append_key m k v hf

/-- After stripping, the "document" key is gone. -/
theorem lookup_stripDocument (m : Meta) :
    (stripDocument m).lookup "document" = none := by
  induction m with
  | nil => rfl
  | cons p t ih =>
    by_cases hp : p.1 = "document"
    · have : (p.1 != "document") = false := by simp [hp]
      simpa [stripDocument, this] using ih
    · have h1 : (p.1 != "document") = true := by simp [hp]
      have h2 : ("document" == p.1) = false := beq_eq_false_iff_ne.mpr (Ne.symm hp)
      simpa [stripDocument, h1, List.lookup, h2] using ih

/-- C10: (a) each record built by add stores the chunk text under the
"document" key, overwriting any caller-supplied value; (b) query returns
metadata with the "document" key stripped; (c) get_all_metadata does
too.  So a caller-supplied "document" value never comes back. -/
theorem C10_document_key :
    (∀ (docs : List String) (metas : List Meta) (i : ℕ),
        i < min docs.length metas.length →
        ((combineMeta docs metas).getD i []).lookup "document" =
          some (MVal.str (docs.getD i ""))) ∧
    (∀ (s : VectorStore) (q : Vec) (k : ℕ) (m : Meta),
        m ∈ (query s q k).metadatas.flatten → m.lookup "document" = none) ∧
    (∀ (s : VectorStore) (m : Meta),
        m ∈ getAllMetadata s → m.lookup "document" = none) := by
  refine ⟨?_, ?_, ?_⟩
  · intro docs metas i hi
    have hid : i < docs.length := lt_of_lt_of_le hi (Nat.min_le_left _ _)
    have hcm : i < (combineMeta docs metas).length := by
      simpa [combineMeta, List.length_zip] using hi
    have hgoal : (combineMeta docs metas).getD i [] =
        dictSet (metas.getD i []) "document" (MVal.str (docs.getD i "")) := by
      have him : i < metas.length := lt_of_lt_of_le hi (Nat.min_le_right _ _)
      rw [List.getD_eq_getElem?_getD, List.getElem?_eq_getElem hcm, Option.getD_some,
        List.getD_eq_getElem?_getD docs, List.getElem?_eq_getElem hid, Option.getD_some,
        List.getD_eq_getElem?_getD metas, List.getElem?_eq_getElem him, Option.getD_some]
      simp [combineMeta, List.getElem_zip]
    rw [hgoal, lookup_dictSet_document,
      List.getD_eq_getElem?_getD docs, List.getElem?_eq_getElem hid, Option.getD_some]
  · intro s q k m hm
    unfold query at hm
    split at hm
    · simp at hm
    · rcases List.mem_map.mp (by simpa using hm) with ⟨i, _, hi⟩
      rw [← hi]
      exact lookup_stripDocument _
  · intro s m hm
    rcases List.mem_map.mp hm with ⟨m', _, hm'⟩
    rw [← hm']
    exact lookup_stripDocument m'

theorem C10_witness :
    ((0 : ℕ) < min (["chunk text"] : List String).length
        ([[("document", MVal.str "attacker")]] : List Meta).length ∧
      ((combineMeta ["chunk text"] [[("document", MVal.str "attacker")]]).getD 0 []).lookup
          "document" = some (MVal.str ((["chunk text"] : List String).getD 0 ""))) ∧
    (([] : Meta) ∈ (query ⟨some [[(1 : ℝ)]], [[("document", MVal.str "a")]]⟩
        [(1 : ℝ)] 1).metadatas.flatten ∧
      ([] : Meta).lookup "document" = none) ∧
    (([("t", MVal.str "x")] : Meta) ∈
        getAllMetadata ⟨some [[(1 : ℝ)]], [[("t", MVal.str "x"), ("document", MVal.str "a")]]⟩ ∧
      ([("t", MVal.str "x")] : Meta).lookup "document" = none) := by
  have hq : (query ⟨some [[(1 : ℝ)]], [[("document", MVal.str "a")]]⟩
      [(1 : ℝ)] 1).metadatas.flatten = [([] : Meta)] := rfl
  have hmem : ([] : Meta) ∈ (query ⟨some [[(1 : ℝ)]], [[("document", MVal.str "a")]]⟩
      [(1 : ℝ)] 1).metadatas.flatten := by
    rw [hq]; exact List.mem_singleton.mpr rfl
  have hg : getAllMetadata ⟨some [[(1 : ℝ)]], [[("t", MVal.str "x"), ("document", MVal.str "a")]]⟩
      = [[("t", MVal.str "x")]] := rfl
  have hmem2 : ([("t", MVal.str "x")] : Meta) ∈
      getAllMetadata ⟨some [[(1 : ℝ)]], [[("t", MVal.str "x"), ("document", MVal.str "a")]]⟩ := by
    rw [hg]; exact List.mem_singleton.mpr rfl
  exact ⟨⟨by decide, C10_document_key.1 _ _ 0 (by decide)⟩,
    ⟨hmem, C10_document_key.2.1 _ [(1 : ℝ)] 1 [] hmem⟩,
    ⟨hmem2, C10_document_key.2.2 _ [("t", MVal.str "x")] hmem2⟩⟩

/-! Lemmas about the stable argsort and the top-k selection. -/

theorem argsort_perm (sims : List ℝ) :
    List.Perm (argsort sims) (List.range sims.length) :=
  List.perm_insertionSort _ _

theorem argsort_sorted (sims : List ℝ) : (argsort sims).Pairwise (simLe sims) :=
  List.sorted_insertionSort _ _

theorem argsort_nodup (sims : List ℝ) : (argsort sims).Nodup :=
  (argsort_perm sims).nodup_iff.mpr (List.nodup_range _)

theorem mem_argsort {sims : List ℝ} {i : ℕ} : i ∈ argsort sims ↔ i < sims.length := by
  rw [(argsort_perm sims).mem_iff, List.mem_range]

theorem pySliceLast_sublist {α : Type} (l : List α) (k : ℕ) :
    List.Sublist (pySliceLast l k) l := by
  unfold pySliceLast
  split
  · exact List.Sublist.refl l
  · exact List.drop_sublist _ l

theorem pySliceLast_length_le {α : Type} (l : List α) (k : ℕ) (hk : k ≠ 0) :
    (pySliceLast l k).length ≤ k := by
  unfold pySliceLast
  rw [if_neg hk, List.length_drop]
  omega

theorem topIndices_pairwise (s : VectorStore) (q : Vec) (n : ℕ) :
    (topIndices s q n).Pairwise (fun a b => simLe (simsOf s q) b a) := by
  unfold topIndices
  rw [List.pairwise_reverse]
  exact List.Pairwise.sublist (pySliceLast_sublist _ _) (argsort_sorted (simsOf s q))

theorem topIndices_nodup (s : VectorStore) (q : Vec) (n : ℕ) :
    (topIndices s q n).Nodup := by
  unfold topIndices
  rw [List.nodup_reverse]
  exact (argsort_nodup (simsOf s q)).sublist (pySliceLast_sublist _ _)

theorem topIndices_length_le (s : VectorStore) (q : Vec) (n : ℕ)
    (hn : n ≠ 0) (hc : count s ≠ 0) :
    (topIndices s q n).length ≤ min n (count s) := by
  unfold topIndices
  rw [List.length_reverse]
  have h1 : 0 < min n (count s) :=
    lt_min (Nat.pos_of_ne_zero hn) (Nat.pos_of_ne_zero hc)
  exact pySliceLast_length_le _ _ (Nat.pos_iff_ne_zero.mp h1)

/-- The non-empty branch of query, written out. -/
theorem query_not_empty (s : VectorStore) (q : Vec) (n : ℕ)
    (h : ¬ (s.embeddings.isNone || (count s == 0)) = true) :
    query s q n =
      ⟨[(topIndices s q n).map (fun i => getStr (s.metadata.getD i []) "document")],
       [(topIndices s q n).map (fun i => stripDocument (s.metadata.getD i []))],
       [(topIndices s q n).map (fun i => 1 - val (simsOf s q) i)]⟩ := by
  unfold query
  rw [if_neg h]

theorem topIndices_distances_sorted (s : VectorStore) (q : Vec) (n : ℕ) :
    ((topIndices s q n).map (fun i => 1 - val (simsOf s q) i)).Pairwise (· ≤ ·) := by
  rw [List.pairwise_map]
  refine (topIndices_pairwise s q n).imp ?_
  intro a b hba
  rcases hba with h | ⟨h, _⟩
  · linarith
  · rw [h]

/-! C1: result count bound and ordering. -/

/-- C1 counterexample: on a one-record store, Query with k = 0 returns
one result, not at most min(0, Count()) = 0: the Python slice [-0:]
takes the whole array. -/
theorem C1_counterexample :
    count oneStore = 1 ∧
    (query oneStore e1 0).documents.flatten.length = 1 ∧
    ¬ ((query oneStore e1 0).documents.flatten.length ≤ min 0 (count oneStore)) := by
  refine ⟨rfl, rfl, ?_⟩
  intro h
  rw [show (query oneStore e1 0).documents.flatten.length = 1 from rfl,
      show count oneStore = 1 from rfl] at h
  exact absurd h (by decide)

/-- C1 amended: for every store state and every k greater or equal 1,
Query returns at most min(k, Count()) results, and the reported
distances are non-decreasing, equivalently the similarities are
non-increasing.  (For k = 0 on a non-empty store the bound fails: the
whole collection is returned.) -/
theorem C1_query_count_and_order (s : VectorStore) (q : Vec) (k : ℕ) (hk : 1 ≤ k) :
    (query s q k).documents.flatten.length ≤ min k (count s) ∧
    (query s q k).distances.flatten.Pairwise (· ≤ ·) := by
  by_cases hcond : (s.embeddings.isNone || (count s == 0)) = true
  · unfold query
    rw [if_pos hcond]
    exact ⟨by simp, by simp⟩
  · have hcnt : count s ≠ 0 := fun h => hcond (by simp [h])
    rw [query_not_empty s q k hcond]
    constructor
    · simp only [List.flatten_cons, List.flatten_nil, List.append_nil, List.length_map]
      exact topIndices_length_le s q k (by omega) hcnt
    · simp only [List.flatten_cons, List.flatten_nil, List.append_nil]
      exact topIndices_distances_sorted s q k

theorem C1_witness :
    1 ≤ 1 ∧
    ((query oneStore e1 1).documents.flatten.length ≤ min 1 (count oneStore) ∧
      (query oneStore e1 1).distances.flatten.Pairwise (· ≤ ·)) :=
  ⟨le_refl 1, C1_query_count_and_order oneStore e1 1 (le_refl 1)⟩

/-! C8: order across ties in similarity. -/

theorem tieStore_argsort : argsort (simsOf tieStore e1) = [0, 1] := by
  have hr : simLe (simsOf tieStore e1) 0 1 := Or.inr ⟨rfl, Nat.zero_le 1⟩
  have h2 : List.range (simsOf tieStore e1).length = [0, 1] := rfl
  unfold argsort
  rw [h2]
  simp only [List.insertionSort, List.orderedInsert_nil, List.orderedInsert]
  rw [if_pos hr]

theorem tieStore_topIndices : topIndices tieStore e1 2 = [1, 0] := by
  unfold topIndices
  rw [tieStore_argsort]
  rfl

/-- C8 counterexample: two records with identical vectors (hence exactly
equal similarity to the query) come back in REVERSE insertion order: the
ascending stable argsort is reversed by [::-1]. -/
theorem C8_counterexample :
    val (simsOf tieStore e1) 0 = val (simsOf tieStore e1) 1 ∧
    (query tieStore e1 2).documents = [["b", "a"]] := by
  refine ⟨rfl, ?_⟩
  rw [query_not_empty tieStore e1 2 (by decide)]
  rw [tieStore_topIndices]
  rfl

/-- C8 amended: ties are NOT returned in insertion order.  On a store
with fewer than 16 records — where np.argsort(kind=quicksort) runs a
single stable insertion-sort pass, which the argsort model realises —
two records i and j, i inserted before j, with exactly equal similarity
that both appear in the returned top-k, come back with j STRICTLY
BEFORE i: the ascending stable sort is reversed by [::-1].  For 16 or
more records the default sort is unstable and its tie order is
unspecified, so nothing is asserted there. -/
theorem C8_ties_reverse_insertion (s : VectorStore) (q : Vec) (k i j : ℕ)
    (_hsmall : (simsOf s q).length < 16)
    (hij : i < j) (heq : val (simsOf s q) i = val (simsOf s q) j)
    (hi : i ∈ topIndices s q k) (hj : j ∈ topIndices s q k) :
    (topIndices s q k).indexOf j < (topIndices s q k).indexOf i := by
  have hpw := topIndices_pairwise s q k
  have hii : (topIndices s q k).indexOf i < (topIndices s q k).length :=
    List.indexOf_lt_length.mpr hi
  have hjj : (topIndices s q k).indexOf j < (topIndices s q k).length :=
    List.indexOf_lt_length.mpr hj
  rcases Nat.lt_trichotomy ((topIndices s q k).indexOf j)
      ((topIndices s q k).indexOf i) with h | h | h
  · exact h
  · exact absurd ((List.indexOf_inj hj hi).mp h) (by omega)
  · exfalso
    have hrel := List.pairwise_iff_getElem.mp hpw _ _ hii hjj h
    rw [List.getElem_indexOf hii, List.getElem_indexOf hjj] at hrel
    rcases hrel with hlt | ⟨_, hji⟩
    · rw [heq] at hlt
      exact lt_irrefl _ hlt
    · omega

theorem C8_witness :
    (simsOf tieStore e1).length < 16 ∧
    (0 : ℕ) < 1 ∧
    val (simsOf tieStore e1) 0 = val (simsOf tieStore e1) 1 ∧
    0 ∈ topIndices tieStore e1 2 ∧ 1 ∈ topIndices tieStore e1 2 ∧
    (topIndices tieStore e1 2).indexOf 1 < (topIndices tieStore e1 2).indexOf 0 := by
  have hsmall : (simsOf tieStore e1).length < 16 := by
    rw [show (simsOf tieStore e1).length = 2 from rfl]
    omega
  have hm0 : 0 ∈ topIndices tieStore e1 2 := by
    rw [tieStore_topIndices]
    exact List.mem_cons.mpr (Or.inr (List.mem_singleton.mpr rfl))
  have hm1 : 1 ∈ topIndices tieStore e1 2 := by
    rw [tieStore_topIndices]
    exact List.mem_cons_self 1 [0]
  exact ⟨hsmall, Nat.zero_lt_one, rfl, hm0, hm1,
    C8_ties_reverse_insertion tieStore e1 2 0 1 hsmall Nat.zero_lt_one rfl hm0 hm1⟩

/-! Inner-product arithmetic over list vectors (for C4). -/

theorem dot_nil_left (v : Vec) : dot [] v = 0 := rfl

theorem dot_nil_right (u : Vec) : dot u [] = 0 := by
  simp [dot]

theorem dot_cons (a b : ℝ) (t s : Vec) :
    dot (a :: t) (b :: s) = a * b + dot t s := by
  simp [dot]

theorem dot_self_nonneg (u : Vec) : 0 ≤ dot u u := by
  induction u with
  | nil => simp [dot]
  | cons a t ih =>
    rw [dot_cons]
    nlinarith [mul_self_nonneg a]

theorem sub_dot_identity : ∀ (u v : Vec), u.length = v.length →
    dot ((u.zip v).map (fun p => p.1 - p.2)) ((u.zip v).map (fun p => p.1 - p.2)) =
      dot u u - 2 * dot u v + dot v v := by
  intro u
  induction u with
  | nil =>
    intro v hv
    have : v = [] := List.length_eq_zero.mp hv.symm
    subst this
    simp [dot]
  | cons a t ih =>
    intro v hv
    cases v with
    | nil => simp at hv
    | cons b s =>
      have hts : t.length = s.length := by simpa using hv
      rw [List.zip_cons_cons, List.map_cons, dot_cons, dot_cons, dot_cons, dot_cons,
        ih s hts]
      ring

theorem sub_dot_pos : ∀ (u v : Vec), u.length = v.length → u ≠ v →
    0 < dot ((u.zip v).map (fun p => p.1 - p.2)) ((u.zip v).map (fun p => p.1 - p.2)) := by
  intro u
  induction u with
  | nil =>
    intro v hv hne
    have : v = [] := List.length_eq_zero.mp hv.symm
    exact absurd this.symm hne
  | cons a t ih =>
    intro v hv hne
    cases v with
    | nil => simp at hv
    | cons b s =>
      have hts : t.length = s.length := by simpa using hv
      rw [List.zip_cons_cons, List.map_cons, dot_cons]
      by_cases hab : a = b
      · have htsne : t ≠ s := fun he => hne (by rw [hab, he])
        have h1 := ih s hts htsne
        nlinarith [mul_self_nonneg (a - b)]
      · have h1 : 0 < (a - b) * (a - b) := mul_self_pos.mpr (sub_ne_zero.mpr hab)
        have h2 := dot_self_nonneg ((t.zip s).map (fun p => p.1 - p.2))
        linarith

theorem dot_lt_self_of_ne (u v : Vec) (hl : u.length = v.length) (hne : u ≠ v)
    (hS : dot u u = dot v v) : dot u v < dot v v := by
  have hid := sub_dot_identity u v hl
  have hpos := sub_dot_pos u v hl hne
  linarith

theorem nrm_sq (v : Vec) : nrm v ^ 2 = dot v v := by
  unfold nrm
  exact Real.sq_sqrt (dot_self_nonneg v)

theorem dot_self_eq_of_nrm_eq {u v : Vec} (h : nrm u = nrm v) : dot u u = dot v v := by
  rw [← nrm_sq u, ← nrm_sq v, h]

theorem eps_pos : 0 < eps := by
  unfold eps
  norm_num

/-! Access lemmas for the similarity array (for C4). -/

theorem simsOf_length {s : VectorStore} {embs : Mat} (h : s.embeddings = some embs)
    (q : Vec) : (simsOf s q).length = embs.length := by
  unfold simsOf
  rw [h]
  simp

theorem getD_mem_of_lt {α : Type} (l : List α) (j : ℕ) (d : α) (hj : j < l.length) :
    l.getD j d ∈ l := by
  rw [List.getD_eq_getElem?_getD, List.getElem?_eq_getElem hj, Option.getD_some]
  exact List.getElem_mem hj

theorem val_simsOf {s : VectorStore} {embs : Mat} (h : s.embeddings = some embs)
    (q : Vec) {j : ℕ} (hj : j < embs.length) :
    val (simsOf s q) j = cosSim q (embs.getD j []) := by
  unfold val simsOf
  rw [h]
  simp only [Option.getD_some]
  rw [List.getD_eq_getElem?_getD, List.getElem?_map, List.getElem?_eq_getElem hj,
    List.getD_eq_getElem?_getD, List.getElem?_eq_getElem hj]
  rfl

/-! The element of largest similarity sits last in the stable argsort
(for C4). -/

theorem getLast?_of_argmax (L : List ℕ) (sims : List ℝ) (i : ℕ)
    (hpw : L.Pairwise (simLe sims)) (hi : i ∈ L)
    (hmax : ∀ j ∈ L, j ≠ i → val sims j < val sims i) :
    L.getLast? = some i := by
  have hne : L ≠ [] := List.ne_nil_of_mem hi
  rw [List.getLast?_eq_getLast L hne]
  refine congrArg some ?_
  by_contra hne2
  have hlt := hmax _ (List.getLast_mem hne) hne2
  obtain ⟨p, hp, hpi⟩ := List.getElem_of_mem hi
  have hlp := List.getLast_eq_getElem L hne
  rcases Nat.lt_trichotomy p (L.length - 1) with h | h | h
  · have hrel := List.pairwise_iff_getElem.mp hpw p (L.length - 1) hp (by omega) h
    rw [hpi] at hrel
    rw [hlp] at hlt
    rcases hrel with h2 | ⟨h2, _⟩
    · exact absurd h2 (lt_asymm hlt)
    · rw [h2] at hlt
      exact lt_irrefl _ hlt
  · subst h
    exact hne2 (by rw [hlp, hpi])
  · omega

theorem getLast?_drop_of_lt {α : Type} : ∀ (l : List α) (m : ℕ), m < l.length →
    (l.drop m).getLast? = l.getLast?
  | _, 0, _ => by simp
  | a :: t, m + 1, h => by
    rw [List.drop_succ_cons, getLast?_drop_of_lt t m (by simpa using h)]
    cases t with
    | nil => simp at h
    | cons b s => simp [List.getLast?_cons_cons]

theorem topIndices_head_of_argmax (s : VectorStore) (q : Vec) (n : ℕ) (i : ℕ)
    (hn : n ≠ 0) (hc : count s ≠ 0)
    (hi : i < (simsOf s q).length)
    (hmax : ∀ j, j < (simsOf s q).length → j ≠ i →
      val (simsOf s q) j < val (simsOf s q) i) :
    (topIndices s q n).head? = some i := by
  unfold topIndices
  rw [List.head?_reverse]
  have hlen : (argsort (simsOf s q)).length = (simsOf s q).length := by
    simpa using (argsort_perm (simsOf s q)).length_eq
  have hargmax : (argsort (simsOf s q)).getLast? = some i :=
    getLast?_of_argmax _ _ i (argsort_sorted _) (mem_argsort.mpr hi)
      (fun j hj hne => hmax j (mem_argsort.mp hj) hne)
  have hk : min n (count s) ≠ 0 := by
    have := Nat.pos_of_ne_zero hn
    have := Nat.pos_of_ne_zero hc
    omega
  unfold pySliceLast
  rw [if_neg hk, getLast?_drop_of_lt _ _ (by omega)]
  exact hargmax

/-! C4: querying with the exact stored vector of a record. -/

/-- C4 amended: on a store whose rows all have the length of v and the
norm of v, with norm at least 1/100, and whose record i is the only row
equal to v, querying with v itself returns record i FIRST, its
similarity is within 1e-5 of 1.0, and its reported distance is 1 minus
that similarity. -/
theorem C4_exact_query_first (s : VectorStore) (embs : Mat) (i : ℕ) (v : Vec) (n : ℕ)
    (hemb : s.embeddings = some embs)
    (hcnt : count s = embs.length)
    (hi : i < embs.length)
    (hv : embs.getD i [] = v)
    (hrect : ∀ w ∈ embs, w.length = v.length)
    (hnorm : ∀ w ∈ embs, nrm w = nrm v)
    (huniq : ∀ j, j < embs.length → j ≠ i → embs.getD j [] ≠ v)
    (hbig : (1 : ℝ) / 100 ≤ nrm v)
    (hn : 1 ≤ n) :
    (topIndices s v n).head? = some i ∧
    |val (simsOf s v) i - 1| ≤ 1e-5 ∧
    (query s v n).documents.flatten.head? =
      some (getStr (s.metadata.getD i []) "document") ∧
    (query s v n).distances.flatten.head? = some (1 - val (simsOf s v) i) := by
  have hSnn : 0 ≤ dot v v := dot_self_nonneg v
  have hS4 : (1 : ℝ) / 10000 ≤ dot v v := by
    have h2 : ((1 : ℝ) / 100) ^ 2 ≤ nrm v ^ 2 := pow_le_pow_left₀ (by norm_num) hbig 2
    rw [nrm_sq] at h2
    calc (1 : ℝ) / 10000 = ((1 : ℝ) / 100) ^ 2 := by norm_num
    _ ≤ dot v v := h2
  have hspos : 0 < dot v v + eps := by linarith [eps_pos]
  have hmulself : nrm v * nrm v = dot v v := by
    unfold nrm
    exact Real.mul_self_sqrt (dot_self_nonneg v)
  have hvi : val (simsOf s v) i = dot v v / (dot v v + eps) := by
    rw [val_simsOf hemb v hi, hv]
    unfold cosSim
    rw [hmulself]
  have hmax : ∀ j, j < (simsOf s v).length → j ≠ i →
      val (simsOf s v) j < val (simsOf s v) i := by
    intro j hj hne
    rw [simsOf_length hemb] at hj
    have hwmem : embs.getD j [] ∈ embs := getD_mem_of_lt embs j [] hj
    have hwlen : (embs.getD j []).length = v.length := hrect _ hwmem
    have hwnrm : nrm (embs.getD j []) = nrm v := hnorm _ hwmem
    have hwne : embs.getD j [] ≠ v := huniq j hj hne
    have hdotww : dot (embs.getD j []) (embs.getD j []) = dot v v :=
      dot_self_eq_of_nrm_eq hwnrm
    have hlt : dot (embs.getD j []) v < dot v v :=
      dot_lt_self_of_ne _ v hwlen hwne hdotww
    have hvj : val (simsOf s v) j = dot (embs.getD j []) v / (dot v v + eps) := by
      rw [val_simsOf hemb v hj]
      unfold cosSim
      rw [hwnrm, hmulself]
    rw [hvj, hvi]
    exact (div_lt_div_iff_of_pos_right hspos).mpr hlt
  have hcnt0 : count s ≠ 0 := by omega
  have hhead : (topIndices s v n).head? = some i :=
    topIndices_head_of_argmax s v n i (by omega) hcnt0
      (by rw [simsOf_length hemb]; exact hi) hmax
  have hclose : |val (simsOf s v) i - 1| ≤ 1e-5 := by
    rw [hvi]
    have hne0 : dot v v + eps ≠ 0 := ne_of_gt hspos
    have h1 : dot v v / (dot v v + eps) ≤ 1 := by
      rw [div_le_one hspos]
      linarith [eps_pos]
    rw [abs_sub_comm, abs_of_nonneg (by linarith)]
    have heq : 1 - dot v v / (dot v v + eps) = eps / (dot v v + eps) := by
      field_simp
    rw [heq, div_le_iff₀ hspos]
    unfold eps
    unfold eps at hspos
    nlinarith [hS4]
  have hcond : ¬ (s.embeddings.isNone || (count s == 0)) = true := by
    rw [hemb]
    simp [hcnt0]
  refine ⟨hhead, hclose, ?_, ?_⟩
  · rw [query_not_empty s v n hcond]
    simp only [List.flatten_cons, List.flatten_nil, List.append_nil, List.head?_map, hhead]
    rfl
  · rw [query_not_empty s v n hcond]
    simp only [List.flatten_cons, List.flatten_nil, List.append_nil, List.head?_map, hhead]
    rfl

theorem dot_e1 : dot e1 e1 = 1 := by
  unfold e1
  rw [dot_cons, dot_cons, dot_nil_left]
  norm_num

theorem nrm_e1 : nrm e1 = 1 := by
  unfold nrm
  rw [dot_e1]
  exact Real.sqrt_one

theorem dot_skewW_e1 : dot skewW e1 = 179999999998 / 90000000001 := by
  unfold skewW e1
  rw [dot_cons, dot_cons, dot_nil_left]
  norm_num

theorem nrm_skewW : nrm skewW = 2 := by
  unfold nrm skewW
  rw [dot_cons, dot_cons, dot_nil_left]
  rw [show (179999999998 / 90000000001 * (179999999998 / 90000000001) +
      (1200000 / 90000000001 * (1200000 / 90000000001) + 0) : ℝ) = 2 ^ 2 by norm_num]
  exact Real.sqrt_sq (by norm_num)

theorem skew_lt : val (simsOf skewStore e1) 0 < val (simsOf skewStore e1) 1 := by
  have h0 : val (simsOf skewStore e1) 0 = dot e1 e1 / (nrm e1 * nrm e1 + eps) := rfl
  have h1 : val (simsOf skewStore e1) 1 = dot skewW e1 / (nrm skewW * nrm e1 + eps) := rfl
  rw [h0, h1, dot_e1, nrm_e1, dot_skewW_e1, nrm_skewW]
  unfold eps
  rw [div_lt_div_iff₀ (by norm_num) (by norm_num)]
  norm_num

theorem skew_argsort : argsort (simsOf skewStore e1) = [0, 1] := by
  have hr : simLe (simsOf skewStore e1) 0 1 := Or.inl skew_lt
  have h2 : List.range (simsOf skewStore e1).length = [0, 1] := rfl
  unfold argsort
  rw [h2]
  simp only [List.insertionSort, List.orderedInsert_nil, List.orderedInsert]
  rw [if_pos hr]

theorem skew_topIndices : topIndices skewStore e1 1 = [1] := by
  unfold topIndices
  rw [skew_argsort]
  rfl

/-- C4 counterexample: in skewStore, the query vector e1 IS the stored
vector of record 0 ("noteR"), and record 1 has a different direction
(its second coordinate is nonzero while e1 is [1, 0]); still the first
result is record 1 ("noteW"), not record 0: the +epsilon in the
denominator penalises the small-norm record more than the large-norm,
nearly-parallel record. -/
theorem C4_counterexample :
    (skewStore.embeddings.getD []).getD 0 [] = e1 ∧
    ((skewStore.embeddings.getD []).getD 1 []).getD 1 0 ≠ (0 : ℝ) ∧
    (query skewStore e1 1).documents = [["noteW"]] ∧
    getStr (skewStore.metadata.getD 0 []) "document" = "noteR" ∧
    ("noteW" : String) ≠ "noteR" := by
  refine ⟨rfl, ?_, ?_, rfl, by decide⟩
  · show (1200000 / 90000000001 : ℝ) ≠ 0
    norm_num
  · rw [query_not_empty skewStore e1 1 (by decide), skew_topIndices]
    rfl

theorem C4_witness :
    ((1 : ℝ) / 100 ≤ nrm e1) ∧
    ((topIndices oneStore e1 1).head? = some 0 ∧
      |val (simsOf oneStore e1) 0 - 1| ≤ 1e-5 ∧
      (query oneStore e1 1).documents.flatten.head? =
        some (getStr (oneStore.metadata.getD 0 []) "document") ∧
      (query oneStore e1 1).distances.flatten.head? =
        some (1 - val (simsOf oneStore e1) 0)) := by
  have hbig : (1 : ℝ) / 100 ≤ nrm e1 := by
    rw [nrm_e1]
    norm_num
  refine ⟨hbig, ?_⟩
  refine C4_exact_query_first oneStore [e1] 0 e1 1 rfl rfl (by decide) rfl ?_ ?_ ?_ hbig
    (le_refl 1)
  · intro w hw
    rw [List.mem_singleton.mp hw]
  · intro w hw
    rw [List.mem_singleton.mp hw]
  · intro j hj hne
    rw [show ([e1] : Mat).length = 1 from rfl] at hj
    omega

end SelfNotes
